import Mathlib

/-!
Verification of the incremental watermark-and-reconciliation pipeline of the
AWS-Lambda LaunchDarkly domain-update job.

The definitions below are a shallow embedding of the JavaScript sources:

* `src/unnamed/part_004` — `processDailyManifests`, `processLdRequestWorkflow`
* `src/services/utilsService/index.js` — `setLastUpdateDateFromSegment`,
  `sortS3ManifestUrlsByTimestamp`, `getDatesFromLastUpdateToCurrent`,
  `formatDateTimeString`, `formatSuccessMessage`
* `src/unnamed/part_000` — the S3 wrapper (`ListObjects` / `GetObject`),
  folded into the oracle functions of `World`
* `src/services/ldService.js` — the LD REST wrapper (`fetchDataFromApi`,
  `sendDataToApi`), folded into `World.fetchResult` / `World.patchOk`
* `src/lambda/handler.js` — `handler`

Timestamps are modelled as naturals (milliseconds since the UTC epoch, as in
JS `Date`).  External I/O (S3 listing and fetching, the LD REST calls, the
wall clock) is modelled as oracle fields of a `World` record; each run is then
a pure function of the `World`.  JS promise fan-out joined by `Promise.all`
preserves input order and is insensitive to completion order, so each fan-out
stage is embedded as an order-preserving `List.map`.
-/

namespace LdPipeline

/-- Lexicographic comparison of character lists by code point; this is the
semantics of the JS `<` operator on (ASCII) strings, used by the source for
its fixed-width timestamp-token comparisons. -/
def strLtAux : List Char → List Char → Bool
  | [], [] => false
  | [], _ :: _ => true
  | _ :: _, [] => false
  | a :: as, b :: bs =>
    if a.toNat < b.toNat then true
    else if b.toNat < a.toNat then false
    else strLtAux as bs

/-- JS string comparison `a < b`. -/
def jsStrLt (a b : String) : Bool := strLtAux a.data b.data

/-- Helper for `jsSplit`: accumulates the current field (reversed). -/
def splitAux (sep : Char) : List Char → List Char → List String
  | [], acc => [String.mk acc.reverse]
  | c :: cs, acc =>
    if c = sep then String.mk acc.reverse :: splitAux sep cs []
    else splitAux sep cs (c :: acc)

/-- JS `String.prototype.split(sep)` for a one-character separator, as used by
the source with separator `'/'`. -/
def jsSplit (sep : Char) (s : String) : List String := splitAux sep s.data []

/-- Decimal reading of a digit string; agrees with JS numeric coercion
(`Number(s)`, `ToIntegerOrInfinity`) on strings of decimal digits, the only
shapes the claims exercise. -/
def jsToNat (s : String) : Nat := s.data.foldl (fun n c => n * 10 + (c.toNat - 48)) 0

/-- JS `String.prototype.substring(a, b)` for `a ≤ b` within bounds. -/
def jsSubstring (s : String) (a b : Nat) : String := String.mk ((s.data.drop a).take (b - a))

/-- Is `pat` a prefix of the character list? (Helper for `jsReplaceFirst`.) -/
def listStartsWith : List Char → List Char → Bool
  | [], _ => true
  | _ :: _, [] => false
  | p :: ps, c :: cs => (p == c) && listStartsWith ps cs

/-- Helper for `jsReplaceFirst`: replaces the first occurrence of `pat`. -/
def replaceFirstAux (pat rep : List Char) : List Char → List Char
  | [] => if pat.isEmpty then rep else []
  | c :: cs =>
    if listStartsWith pat (c :: cs) then rep ++ (c :: cs).drop pat.length
    else c :: replaceFirstAux pat rep cs

/-- JS `String.prototype.replace(pat, rep)` with a string pattern: replaces
only the first occurrence (used by the source to strip the
`s3://<bucket>/` scheme from data-file URLs). -/
def jsReplaceFirst (s pat rep : String) : String :=
  String.mk (replaceFirstAux pat.data rep.data s.data)

/-- Lodash `_.compact` on a string list: drops falsy entries (here: `""`,
which also stands for the `null`/`undefined` cells of a parsed CSV row). -/
def jsCompact (l : List String) : List String := l.filter (fun s => !(s == ""))

/-- Helper for `jsUniq`: `seen` holds the values already emitted. -/
def jsUniqAux : List String → List String → List String
  | [], _ => []
  | x :: xs, seen =>
    if seen.contains x then jsUniqAux xs seen
    else x :: jsUniqAux xs (x :: seen)

/-- Lodash `_.uniq`: keeps the first occurrence of each value, preserving
order. -/
def jsUniq (l : List String) : List String := jsUniqAux l []

/-- Sequencing of a list of settled promises as joined by `Promise.all`:
the result is the list of fulfilled values, unless some element rejected, in
which case the join rejects (the leftmost rejection is reported; the claims
never inspect which one). -/
def exceptAll {α : Type} : List (Except String α) → Except String (List α)
  | [] => .ok []
  | .error e :: _ => .error e
  | .ok a :: rest =>
    match exceptAll rest with
    | .error e => .error e
    | .ok as => .ok (a :: as)

/-! ### UTC calendar arithmetic (the relevant behaviour of `dayjs`/`Date`) -/

def msPerDay : Nat := 86400000

def msPerHour : Nat := 3600000

def msPerMinute : Nat := 60000

/-- Civil date from days since the UTC epoch (standard Gregorian algorithm);
this is what `Date#getUTCFullYear/Month/Date` and the `dayjs` UTC formatters
compute. -/
def civilFromDays (z : Nat) : Nat × Nat × Nat :=
  let z' := z + 719468
  let era := z' / 146097
  let doe := z' % 146097
  let yoe := (doe - doe / 1460 + doe / 36524 - doe / 146096) / 365
  let y := yoe + era * 400
  let doy := doe - (365 * yoe + yoe / 4 - yoe / 100)
  let mp := (5 * doy + 2) / 153
  let d := doy - (153 * mp + 2) / 5 + 1
  let m := if mp < 10 then mp + 3 else mp - 9
  (if m ≤ 2 then y + 1 else y, m, d)

def yearOf (t : Nat) : Nat := (civilFromDays (t / msPerDay)).1

def monthOf (t : Nat) : Nat := (civilFromDays (t / msPerDay)).2.1

def dayOf (t : Nat) : Nat := (civilFromDays (t / msPerDay)).2.2

def hourOf (t : Nat) : Nat := t % msPerDay / msPerHour

def minuteOf (t : Nat) : Nat := t % msPerHour / msPerMinute

def secondOf (t : Nat) : Nat := t % msPerMinute / 1000

def pad2 (n : Nat) : String := if n < 10 then "0" ++ toString n else toString n

def pad4 (n : Nat) : String :=
  if n < 10 then "000" ++ toString n
  else if n < 100 then "00" ++ toString n
  else if n < 1000 then "0" ++ toString n
  else toString n

/-- Embeds `dayjs(t).utc().format('YYYY-MM-DD')`. -/
def fmtYMD (t : Nat) : String :=
  pad4 (yearOf t) ++ "-" ++ pad2 (monthOf t) ++ "-" ++ pad2 (dayOf t)

/-- Embeds `dayjs(t).utc().format('HHmmss')`. -/
def fmtHHmmss (t : Nat) : String :=
  pad2 (hourOf t) ++ pad2 (minuteOf t) ++ pad2 (secondOf t)

def monthName : Nat → String
  | 1 => "January"
  | 2 => "February"
  | 3 => "March"
  | 4 => "April"
  | 5 => "May"
  | 6 => "June"
  | 7 => "July"
  | 8 => "August"
  | 9 => "September"
  | 10 => "October"
  | 11 => "November"
  | 12 => "December"
  | _ => "Invalid"

def hour12 (h : Nat) : Nat := if h % 12 = 0 then 12 else h % 12

def amPm (h : Nat) : String := if h < 12 then "AM" else "PM"

/-- The display rendering `'MMMM D, YYYY, h:mm:ss A [UTC]'` shared by the
success notifications and the stored watermark. -/
def displayYmdHms (y mo d h mi s : Nat) : String :=
  monthName mo ++ " " ++ toString d ++ ", " ++ toString y ++ ", " ++
    toString (hour12 h) ++ ":" ++ pad2 mi ++ ":" ++ pad2 s ++ " " ++ amPm h ++ " UTC"

/-- Embeds `dayjs(t).utc().format('MMMM D, YYYY, h:mm:ss A [UTC]')` for a
millisecond timestamp. -/
def displayOfMs (t : Nat) : String :=
  displayYmdHms (yearOf t) (monthOf t) (dayOf t) (hourOf t) (minuteOf t) (secondOf t)

/-- Is `s` a non-empty string of decimal digits? -/
def allDigits (s : String) : Bool :=
  !s.data.isEmpty && s.data.all (fun c => (48 ≤ c.toNat) && (c.toNat ≤ 57))

/-- Embeds `dayjs(iso).utc().format('MMMM D, YYYY, h:mm:ss A [UTC]')` for an
ISO-like string `YYYY-MM-DDTHH:MM:SSZ` as produced by
`formatDateTimeString`; unparseable input renders as the JS
"Invalid Date" (the claims only exercise well-formed components). -/
def displayOfIso (iso : String) : String :=
  match jsSplit 'T' iso with
  | [d, t] =>
    match jsSplit '-' d, jsSplit ':' t with
    | [y, mo, da], [h, mi, sz] =>
      match sz.data.getLast? with
      | some 'Z' =>
        let s := String.mk sz.data.dropLast
        if allDigits y && allDigits mo && allDigits da && allDigits h &&
            allDigits mi && allDigits s && decide (1 ≤ jsToNat mo) && decide (jsToNat mo ≤ 12) then
          displayYmdHms (jsToNat y) (jsToNat mo) (jsToNat da) (jsToNat h) (jsToNat mi) (jsToNat s)
        else "Invalid Date"
      | _ => "Invalid Date"
    | _, _ => "Invalid Date"
  | _ => "Invalid Date"

/-! ### Data model -/

/-- An entry of a rule's `clauses[]` array.  The JS field `attribute` is
renamed `attr` (Lean keyword) and the JS field `op` is renamed `clauseOp`
to avoid clashing with the patch operation's own `op`. -/
structure Clause where
  contextKind : String
  attr : String
  clauseOp : String
  values : List String
  negate : Bool
deriving DecidableEq

/-- An entry of the segment's `rules[]` array; `description = none` models an
absent/undefined description, `some ""` an empty one (both falsy in JS). -/
structure SegRule where
  description : Option String
  clauses : List Clause
deriving DecidableEq

/-- The segment document returned by the LD GET. -/
structure SegmentData where
  rules : List SegRule
deriving DecidableEq

/-- Outcome of fetching one individual data file (`GetObject` + gunzip + CSV
parse).  `missing` is the "object absent or empty body" case (`GetObject`
returns `[]` on `NoSuchKey`, so `data.Body` is undefined); `failure` is any
other per-file error, which the source swallows (the task resolves with
`undefined`, removed later by `_.compact`); `rows cells` is the column-0
projection of the parsed CSV. -/
inductive FileOutcome
  | missing
  | failure
  | rows (cells : List String)
deriving DecidableEq

/-- A JS value that is either still the `Date` produced by the watermark
extractor or the display string produced by the watermark update; the
source's `lastUpdatedDate` variable holds either. -/
inductive JsVal
  | date (ms : Nat)
  | str (s : String)
deriving DecidableEq

/-- The Slack notifications the pipeline can send, abstracted to their send
site and payload data. -/
inductive Msg
  | fetchFailed
  | fallbackUsed (ms : Nat)
  | manifestError (path : String)
  | fileMissing (path : String)
  | s3Error
  | invalidToken (path : String)
  | patchFailed
  | success (watermark : JsVal) (count : Nat)
  | handlerFailure
deriving DecidableEq

/-- One JSON-patch operation as assembled by the source (the single clause
object it carries is flattened into the record; `attribute` is renamed
`attr`, the clause's `op: 'in'` is `clauseOp`). -/
structure PatchOp where
  op : String
  path : String
  contextKind : String
  attr : String
  clauseOp : String
  values : List String
  negate : Bool
  description : JsVal
deriving DecidableEq

/-! ### utilsService -/

/-- Embeds `setLastUpdateDateFromSegment` (src/services/utilsService/index.js):
searches `rules[]` in order for the first truthy `description` that parses as
a valid date (`dayjs(d).isValid()`, modelled by the oracle `parseDesc`
returning `some` of the parsed millisecond value) and returns its parse;
otherwise returns the configured fallback date and sends a diagnostic Slack
message.  Total: malformed descriptions are skipped, never thrown on. -/
def ruleDescValid (parseDesc : String → Option Nat) (r : SegRule) : Bool :=
  match r.description with
  | some d => !(d == "") && (parseDesc d).isSome
  | none => false

/-- The body of `setLastUpdateDateFromSegment`; see the contract above. -/
def setLastUpdateDateFromSegment (parseDesc : String → Option Nat) (fallbackDate : Nat)
    (sd : SegmentData) : Nat × List Msg :=
  match sd.rules.find? (ruleDescValid parseDesc) with
  | some r => ((r.description.bind parseDesc).getD 0, [])
  | none => (fallbackDate, [Msg.fallbackUsed fallbackDate])

/-- The sort key of `sortS3ManifestUrlsByTimestamp`:
`const [, year, month, day, time] = url.split('/')` concatenated; a missing
part destructures to `undefined`, which JS template literals render as the
string shown. -/
def manifestSortKey (url : String) : String :=
  let parts := jsSplit '/' url
  parts.getD 1 "undefined" ++ parts.getD 2 "undefined" ++
    parts.getD 3 "undefined" ++ parts.getD 4 "undefined"

/-- Insert into an already-sorted list, after any equal keys (the placement a
stable ascending sort produces when inserting an earlier-listed element). -/
def insertByKey (x : String) : List String → List String
  | [] => [x]
  | y :: ys =>
    if jsStrLt (manifestSortKey y) (manifestSortKey x) then y :: insertByKey x ys
    else x :: y :: ys

/-- Embeds `sortS3ManifestUrlsByTimestamp` (src/services/utilsService/index.js):
lodash `_.sortBy` — a stable ascending sort by `manifestSortKey`, embedded as
a stable insertion sort; empty/invalid input yields `[]`. -/
def sortS3ManifestUrlsByTimestamp (manifestUrls : List String) : List String :=
  if manifestUrls.isEmpty then []
  else manifestUrls.foldr insertByKey []

/-- Embeds `formatDateTimeString` (src/services/utilsService/index.js): builds the
ISO-like string from path segments 4–6 and the HHMMSS part of the
10-character token. -/
def formatDateTimeString (parts : List String) (numericPart : String) : String :=
  parts.getD 4 "undefined" ++ "-" ++ parts.getD 5 "undefined" ++ "-" ++
    parts.getD 6 "undefined" ++ "T" ++ jsSubstring numericPart 0 2 ++ ":" ++
    jsSubstring numericPart 2 4 ++ ":" ++ jsSubstring numericPart 4 6 ++ "Z"

/-- Embeds `Date#setUTCHours(0,0,0,0)`: truncation to UTC midnight. -/
def floorDay (t : Nat) : Nat := t / msPerDay * msPerDay

/-- The `while (currentIteratingDate <= currentDate)` loop of
`getDatesFromLastUpdateToCurrent`; the fuel argument bounds the iteration
count (each step advances one day, so the day count of the range suffices). -/
def getDatesGo : Nat → Nat → Nat → List Nat
  | 0, _, _ => []
  | fuel + 1, cur, endDay => if cur ≤ endDay then cur :: getDatesGo fuel (cur + msPerDay) endDay else []

/-- Embeds `getDatesFromLastUpdateToCurrent` (src/services/utilsService/index.js):
both bounds are truncated to UTC midnight and every day from the watermark's
day through the current day is collected (inclusive). -/
def getDatesFromLastUpdateToCurrent (lastUpdatedDate now : Nat) : List Nat :=
  getDatesGo ((floorDay now - floorDay lastUpdatedDate) / msPerDay + 1)
    (floorDay lastUpdatedDate) (floorDay now)

/-! ### processDailyManifests (src/unnamed/part_004) -/

/-- The filter predicate of `processDailyManifests`: keep listed keys of the
shape `…/…/…/…/<token>/manifest` whose non-empty time token strictly exceeds
`lastUpdatedTime` under JS string comparison. -/
def manifestKeep (lastUpdatedTime : String) (key : String) : Bool :=
  let parts := jsSplit '/' key
  decide (parts.length > 4) && !(parts.getD 4 "" == "") &&
    (parts.getD 5 "" == "manifest") && jsStrLt lastUpdatedTime (parts.getD 4 "")

/-- The partition prefix `pqa_trials/YYYY/MM/DD/` listed for a given day. -/
def folderPathOf (day : Nat) : String :=
  "pqa_trials/" ++ pad4 (yearOf day) ++ "/" ++ pad2 (monthOf day) ++ "/" ++ pad2 (dayOf day) ++ "/"

/-- Embeds `processDailyManifests` (src/unnamed/part_004): lists the day's partition
prefix and keeps manifest keys newer than the intra-day lower bound — the
watermark's `HHmmss` + `'0000'` token on the watermark's own day, the literal
`'0000000000'` otherwise.  A listing failure rejects (no Slack message is
sent on the `isError` path). -/
def processDailyManifests (listObjects : String → Except String (List String))
    (day lastUpdatedDate : Nat) : Except String (List String) :=
  let dayDate := fmtYMD day
  let lastDate := fmtYMD lastUpdatedDate
  let lastUpdatedTime :=
    if dayDate == lastDate then fmtHHmmss lastUpdatedDate ++ "0000" else "0000000000"
  match listObjects (folderPathOf day) with
  | .error e => .error e
  | .ok contents => .ok (contents.filter (manifestKeep lastUpdatedTime))

/-! ### Patch assembly (src/unnamed/part_004, lines 259–319) -/

/-- One element pushed onto `patchOperation`. -/
def mkPatchOp (op : String) (vals : List String) (desc : JsVal) : PatchOp :=
  { op := op, path := "/rules/0", contextKind := "user", attr := "emailDomain",
    clauseOp := "in", values := vals, negate := false, description := desc }

/-- JS `Array.prototype.slice(a, b)` for naturals (out-of-range bounds are
clamped). -/
def jsSlice (l : List String) (a b : Nat) : List String := (l.drop a).take (b - a)

/-- The chunking loop `for (let count = 0; count < len; count += Limit)`.

`Limit` is `process.env.LIMIT`, a *string*, so `count += Limit` is JS string
concatenation: `count` takes the values `0`, `'0' + Limit`, `'0' + Limit +
Limit`, …, numerically coerced wherever compared or sliced.  `count` is
carried here as the string `"0"`, `"0" ++ limit`, …; `isFirst` tracks
`count === 0`, which holds only for the initial numeric `0`.  The fuel bounds
the iteration count (for a limit of positive numeric value, `vals.length + 1`
suffices, since the coerced count strictly grows each step). -/
def chunkLoop (limit : String) (vals : List String) (initType : String) (desc : JsVal) :
    Nat → String → Bool → List PatchOp
  | 0, _, _ => []
  | fuel + 1, count, isFirst =>
    if jsToNat count < vals.length then
      mkPatchOp (if isFirst then initType else "add")
          (jsSlice vals (jsToNat count) (jsToNat (count ++ limit))) desc
        :: chunkLoop limit vals initType desc fuel (count ++ limit) false
    else []

/-- The patch-assembly conditional: one operation when the merged list is
within the (numerically coerced) limit, the chunking loop otherwise. -/
def buildPatchOperations (limit : String) (updatedEmailDomains : List String)
    (initialOperationType : String) (desc : JsVal) : List PatchOp :=
  if updatedEmailDomains.length > jsToNat limit then
    chunkLoop limit updatedEmailDomains initialOperationType desc
      (updatedEmailDomains.length + 1) "0" true
  else
    [mkPatchOp initialOperationType updatedEmailDomains desc]

/-- Merge mode (lines 262–272): with an existing rule the first chunk
replaces slot 0 and the merged values are
`existing rules[0].clauses[0].values ++ new`, else the values are the new
domains alone and the first chunk adds. -/
def mergePlan (sd : SegmentData) (domains : List String) : List String × String :=
  match sd.rules with
  | [] => (domains, "add")
  | r :: _ => ((((r.clauses.head?).map Clause.values).getD []) ++ domains, "replace")

/-! ### The run -/

/-- All external inputs of one run.  `listObjects` is the S3 listing per
folder path (`ListObjects` of src/unnamed/part_000, `.isError` folded to
`.error`); `getManifest` is `GetObject` + `streamToString` + `JSON.parse` +
`entries[].url` per manifest key (any failure there rejects); `getFile` is
the per-data-file fetch outcome; `patchOk` is whether the LD PATCH responded
2xx (`sendDataToApi` of src/services/ldService.js returns `isError: !ok` and
on success `data` is the response object, whose `.ok` is then true). -/
structure World where
  fetchResult : Except String SegmentData
  parseDesc : String → Option Nat
  fallbackDate : Nat
  now : Nat
  bucket : String
  limit : String
  listObjects : String → Except String (List String)
  getManifest : String → Except String (List String)
  getFile : String → FileOutcome
  patchOk : Bool

/-- Lines 126–147: enumerate the days, scan each concurrently, flatten, and
sort the collected manifest keys by their embedded timestamp. -/
def runScan (w : World) (lastUpdatedDate : Nat) : Except String (List String) :=
  match exceptAll ((getDatesFromLastUpdateToCurrent lastUpdatedDate w.now).map
      (fun day => processDailyManifests w.listObjects day lastUpdatedDate)) with
  | .error e => .error e
  | .ok manifestLists => .ok (sortS3ManifestUrlsByTimestamp manifestLists.flatten)

/-- Lines 149–169: resolve every manifest to its `entries[].url` list; each
failing manifest sends its own Slack message and the join rejects. -/
def runResolve (w : World) (allManifestUrls : List String) :
    Except String (List String) × List Msg :=
  let results := allManifestUrls.map (fun p => (p, w.getManifest p))
  let msgs := results.filterMap (fun pr =>
    match pr.2 with
    | .error _ => some (Msg.manifestError pr.1)
    | .ok _ => none)
  (match exceptAll (results.map Prod.snd) with
   | .error e => .error e
   | .ok lists => .ok lists.flatten, msgs)

/-- Lines 171–198: the per-file task.  The bucket scheme is stripped from the
URL; a missing/empty object contributes `[]` with a skip message; any other
per-file failure resolves with `undefined` (later removed by `_.compact`),
contributing nothing; otherwise the CSV's column-0 cells contribute. -/
def fileContribution (getFile : String → FileOutcome) (bucket : String) (filePath : String) :
    List String × List Msg :=
  let key := jsReplaceFirst filePath ("s3://" ++ bucket ++ "/") ""
  match getFile key with
  | .missing => ([], [Msg.fileMissing key])
  | .failure => ([], [])
  | .rows cells => (cells, [])

/-- Lines 200–204: join the per-file tasks, flatten, drop falsy values and
deduplicate. -/
def runExtract (w : World) (allFileUrls : List String) : List String × List Msg :=
  let contribs := allFileUrls.map (fileContribution w.getFile w.bucket)
  (jsUniq (jsCompact (contribs.map Prod.fst).flatten), (contribs.map Prod.snd).flatten)

/-- Lines 229–249: recompute the watermark from `_.last(allFileUrls)`.  The
whole block runs under the JS truthiness guard `if (lastFilePath)`, so it is
skipped silently — no message, watermark kept — both when the list is empty
(`_.last` yields `undefined`) and when the last URL is the empty string.
Inside the block: when the URL's segment 7 is a token of exactly 10
characters the watermark becomes the display string of the embedded
timestamp; otherwise (absent, empty or wrongly sized token) the prior
watermark is kept and an invalid-token message is sent. -/
def computeNewWatermark (lastUpdated0 : Nat) (allFileUrls : List String) : JsVal × List Msg :=
  match allFileUrls.getLast? with
  | none => (.date lastUpdated0, [])
  | some lastFilePath =>
    if lastFilePath == "" then (.date lastUpdated0, [])
    else
      let parts := jsSplit '/' lastFilePath
      match parts[7]? with
      | some tok =>
        if !(tok == "") && tok.length == 10 then
          (.str (displayOfIso (formatDateTimeString parts tok)), [])
        else (.date lastUpdated0, [Msg.invalidToken lastFilePath])
      | none => (.date lastUpdated0, [Msg.invalidToken lastFilePath])

/-- The observable outcome of one run: whether the workflow promise resolved
(`ok`) or rejected, whether the LD PATCH was issued and with which
operations, and the notifications sent.  `fileUrls` and `domains` record the
run's `allFileUrls` and deduplicated `domains` values for observation. -/
structure RunResult where
  ok : Bool
  patchCalled : Bool
  patches : List PatchOp
  fileUrls : List String
  domains : List String
  msgs : List Msg
deriving DecidableEq

/-- Embeds `processLdRequestWorkflow` (src/unnamed/part_004): the whole run as a
pure function of the `World`. -/
def processLdRequestWorkflow (w : World) : RunResult :=
  match w.fetchResult with
  | .error _ =>
    { ok := false, patchCalled := false, patches := [], fileUrls := [], domains := [],
      msgs := [Msg.fetchFailed] }
  | .ok segmentData =>
    let wm := setLastUpdateDateFromSegment w.parseDesc w.fallbackDate segmentData
    match runScan w wm.1 with
    | .error _ =>
      { ok := false, patchCalled := false, patches := [], fileUrls := [], domains := [],
        msgs := wm.2 ++ [Msg.s3Error] }
    | .ok allManifestUrls =>
      let resolved := runResolve w allManifestUrls
      match resolved.1 with
      | .error _ =>
        { ok := false, patchCalled := false, patches := [], fileUrls := [], domains := [],
          msgs := wm.2 ++ resolved.2 ++ [Msg.s3Error] }
      | .ok allFileUrls =>
        let ext := runExtract w allFileUrls
        if ext.1.isEmpty then
          { ok := true, patchCalled := false, patches := [], fileUrls := allFileUrls,
            domains := ext.1,
            msgs := wm.2 ++ resolved.2 ++ ext.2 ++
              [Msg.success (.str (displayOfMs wm.1)) 0] }
        else
          let wmUpd := computeNewWatermark wm.1 allFileUrls
          let plan := mergePlan segmentData ext.1
          let ops := buildPatchOperations w.limit plan.1 plan.2 wmUpd.1
          { ok := true, patchCalled := true, patches := ops, fileUrls := allFileUrls,
            domains := ext.1,
            msgs := wm.2 ++ resolved.2 ++ ext.2 ++ wmUpd.2 ++
              (if w.patchOk then [Msg.success wmUpd.1 ext.1.length] else [Msg.patchFailed]) }

/-- Embeds `handler` (src/lambda/handler.js): a resolved workflow maps to a 200
response; a rejected one is reported to Slack and maps to a 500 response. -/
def handler (w : World) : Nat × List Msg :=
  let r := processLdRequestWorkflow w
  if r.ok then (200, r.msgs) else (500, r.msgs ++ [Msg.handlerFailure])

/-! ### C9: the date range enumerator -/

/-- The spec-side description of the range (§4.2): the ordered UTC calendar
days from the watermark's day through the current day, each normalized to
midnight. -/
def dateRangeSpec (wm now : Nat) : List Nat :=
  (List.range ((floorDay now - floorDay wm) / msPerDay + 1)).map
    (fun i => floorDay wm + i * msPerDay)

theorem getDatesGo_spec (k : Nat) : ∀ a : Nat,
    getDatesGo (k + 1) a (a + k * msPerDay) =
      (List.range (k + 1)).map (fun i => a + i * msPerDay) := by
  induction k with
  | zero =>
    intro a
    simp [getDatesGo, List.range_succ]
  | succ k ih =>
    intro a
    have hle : a ≤ a + (k + 1) * msPerDay := Nat.le_add_right _ _
    have hstep : a + (k + 1) * msPerDay = (a + msPerDay) + k * msPerDay := by ring
    have h1 : getDatesGo (k + 1 + 1) a (a + (k + 1) * msPerDay) =
        a :: getDatesGo (k + 1) (a + msPerDay) (a + (k + 1) * msPerDay) := by
      simp [getDatesGo, hle]
    rw [h1, hstep, ih (a + msPerDay)]
    conv_rhs => rw [List.range_succ_eq_map]
    simp only [List.map_cons, List.map_map, Nat.zero_mul, Nat.add_zero]
    congr 1
    apply List.map_congr_left
    intro i _
    simp only [Function.comp_apply, Nat.succ_eq_add_one]
    ring

/-- C9: for every watermark date and every current date not earlier than it,
the date range enumerator returns the ordered sequence of UTC calendar days
from the watermark's day (inclusive) through the current day (inclusive),
each normalized to midnight, and the sequence is non-empty with today as its
last day (even when the watermark's day equals today). -/
theorem C9_date_range_enumerator (wm now : Nat) (h : wm ≤ now) :
    getDatesFromLastUpdateToCurrent wm now = dateRangeSpec wm now ∧
    getDatesFromLastUpdateToCurrent wm now ≠ [] ∧
    (getDatesFromLastUpdateToCurrent wm now).head? = some (floorDay wm) ∧
    (getDatesFromLastUpdateToCurrent wm now).getLast? = some (floorDay now) := by
  have hD : 0 < msPerDay := by decide
  have hdiv : wm / msPerDay ≤ now / msPerDay := Nat.div_le_div_right h
  set k := now / msPerDay - wm / msPerDay with hk
  have hmul : wm / msPerDay * msPerDay ≤ now / msPerDay * msPerDay :=
    Nat.mul_le_mul_right _ hdiv
  have hb : floorDay now = floorDay wm + k * msPerDay := by
    unfold floorDay
    rw [hk, Nat.sub_mul]
    omega
  have hsub : floorDay now - floorDay wm = k * msPerDay := by omega
  have hquot : (floorDay now - floorDay wm) / msPerDay = k := by
    rw [hsub, Nat.mul_div_cancel _ hD]
  have hmain : getDatesFromLastUpdateToCurrent wm now =
      (List.range (k + 1)).map (fun i => floorDay wm + i * msPerDay) := by
    unfold getDatesFromLastUpdateToCurrent
    rw [hquot, hb, getDatesGo_spec]
  have hspec : dateRangeSpec wm now =
      (List.range (k + 1)).map (fun i => floorDay wm + i * msPerDay) := by
    unfold dateRangeSpec
    rw [hquot]
  refine ⟨by rw [hmain, hspec], ?_, ?_, ?_⟩
  · rw [hmain]
    simp
  · rw [hmain, List.head?_map]
    simp [List.range_succ_eq_map]
  · rw [hmain, List.getLast?_map]
    rw [List.range_succ, List.getLast?_append]
    simp [hb]

/-- Witness for C9 at concrete inputs: watermark 2024-01-01T00:00:05Z,
current time 2024-01-03T00:00:00.5Z. -/
theorem C9_date_range_enumerator_witness :
    1704067205000 ≤ 1704240000500 ∧
    (getDatesFromLastUpdateToCurrent 1704067205000 1704240000500 =
        dateRangeSpec 1704067205000 1704240000500 ∧
      getDatesFromLastUpdateToCurrent 1704067205000 1704240000500 ≠ [] ∧
      (getDatesFromLastUpdateToCurrent 1704067205000 1704240000500).head? =
        some (floorDay 1704067205000) ∧
      (getDatesFromLastUpdateToCurrent 1704067205000 1704240000500).getLast? =
        some (floorDay 1704240000500)) :=
  ⟨by decide, C9_date_range_enumerator 1704067205000 1704240000500 (by decide)⟩

/-! ### C10 / C2: the chunking loop -/

theorem foldlDigits_shift (cs : List Char) : ∀ n : Nat,
    cs.foldl (fun n c => n * 10 + (c.toNat - 48)) n =
      n * 10 ^ cs.length + cs.foldl (fun n c => n * 10 + (c.toNat - 48)) 0 := by
  induction cs with
  | nil => intro n; simp
  | cons c cs ih =>
    intro n
    simp only [List.foldl_cons, List.length_cons]
    rw [ih (n * 10 + (c.toNat - 48)), ih (0 * 10 + (c.toNat - 48))]
    ring

/-- The numeric coercion of a concatenated JS count string. -/
theorem jsToNat_append (s t : String) :
    jsToNat (s ++ t) = jsToNat s * 10 ^ t.length + jsToNat t := by
  unfold jsToNat
  rw [String.data_append, List.foldl_append]
  exact foldlDigits_shift t.data (jsToNat s)

theorem jsToNat_concat_lt (count limit : String) (hlim : 1 ≤ jsToNat limit) :
    jsToNat count + 1 ≤ jsToNat (count ++ limit) := by
  rw [jsToNat_append]
  have h10 : 1 ≤ 10 ^ limit.length := Nat.one_le_pow _ _ (by omega)
  have hmul : jsToNat count * 1 ≤ jsToNat count * 10 ^ limit.length :=
    Nat.mul_le_mul_left _ h10
  omega

/-- The concatenation of the value chunks emitted by the loop, starting from
any count value, is exactly the tail of the merged list from the count's
coerced position on — provided the limit coerces to a positive number (the
source loop diverges for a zero limit) and the fuel covers the remaining
length. -/
theorem chunkLoop_flatten (limit : String) (vals : List String) (t : String) (d : JsVal)
    (hlim : 1 ≤ jsToNat limit) : ∀ (fuel : Nat) (count : String) (isFirst : Bool),
    vals.length ≤ fuel + jsToNat count →
    ((chunkLoop limit vals t d fuel count isFirst).map PatchOp.values).flatten =
      vals.drop (jsToNat count) := by
  intro fuel
  induction fuel with
  | zero =>
    intro count isFirst h
    simp only [chunkLoop, List.map_nil, List.flatten_nil]
    exact (List.drop_eq_nil_of_le (by omega)).symm
  | succ fuel ih =>
    intro count isFirst h
    rw [chunkLoop]
    by_cases hc : jsToNat count < vals.length
    · have hv' := jsToNat_concat_lt count limit hlim
      simp only [hc, if_true, List.map_cons, List.flatten_cons, mkPatchOp]
      rw [ih (count ++ limit) false (by omega)]
      unfold jsSlice
      have hdd : vals.drop (jsToNat (count ++ limit)) =
          (vals.drop (jsToNat count)).drop (jsToNat (count ++ limit) - jsToNat count) := by
        rw [List.drop_drop]
        congr 1
        omega
      rw [hdd, List.take_append_drop]
    · simp only [hc, if_false, List.map_nil, List.flatten_nil]
      exact (List.drop_eq_nil_of_le (by omega)).symm

/-- C10: concatenating, in emission order, the values arrays of the patch
operations produced by the chunking step yields exactly the merged domain
list — no value is lost, duplicated, or reordered.  The hypothesis restricts
to limits of positive numeric value: for a configured limit coercing to `0`
the source loop never terminates and emits nothing at all. -/
theorem C10_chunk_concatenation (limit : String) (vals : List String)
    (initType : String) (d : JsVal) (hlim : 1 ≤ jsToNat limit) :
    ((buildPatchOperations limit vals initType d).map PatchOp.values).flatten = vals := by
  unfold buildPatchOperations
  by_cases hgt : vals.length > jsToNat limit
  · simp only [hgt, if_true]
    have h0 : jsToNat "0" = 0 := rfl
    have hjoin := chunkLoop_flatten limit vals initType d hlim (vals.length + 1) "0" true
      (by rw [h0]; omega)
    rw [hjoin, h0, List.drop_zero]
  · simp [hgt, mkPatchOp]

/-- Witness for C10 at a concrete input: limit string "2" and five merged
values. -/
theorem C10_chunk_concatenation_witness :
    1 ≤ jsToNat "2" ∧
    ((buildPatchOperations "2" ["a.com", "b.com", "c.com", "d.com", "e.com"] "replace"
        (JsVal.str "W")).map PatchOp.values).flatten =
      ["a.com", "b.com", "c.com", "d.com", "e.com"] :=
  ⟨by decide,
    C10_chunk_concatenation "2" ["a.com", "b.com", "c.com", "d.com", "e.com"] "replace"
      (JsVal.str "W") (by decide)⟩

/-- C2: evaluation of the patch-assembly step at the claim's own example —
limit 2 (the env string "2") and five merged values with a prior rule.
Because `count += Limit` concatenates strings (`0 → "02" → "022"`), the
second slice is `slice(2, 22)`: the code emits 2 operations with value
chunks of sizes [2, 3], not the 3 operations of sizes [2, 2, 1] the spec
describes, contradicting the source's own comment that it divides the
domains "into chunks of size Limit". -/
theorem C2_chunking_string_limit_eval :
    buildPatchOperations "2" ["a.com", "b.com", "c.com", "d.com", "e.com"] "replace"
        (JsVal.str "W") =
      [mkPatchOp "replace" ["a.com", "b.com"] (JsVal.str "W"),
       mkPatchOp "add" ["c.com", "d.com", "e.com"] (JsVal.str "W")] ∧
    (buildPatchOperations "2" ["a.com", "b.com", "c.com", "d.com", "e.com"] "replace"
        (JsVal.str "W")).length = 2 ∧
    (buildPatchOperations "2" ["a.com", "b.com", "c.com", "d.com", "e.com"] "replace"
        (JsVal.str "W")).map (fun op => op.values.length) = [2, 3] := by
  decide

/-! ### C3: the intra-day manifest boundary -/

/-- Decidable equality for `Except`, so that concrete runs can be settled by
`decide`. -/
instance exceptDecEq {ε α : Type} [DecidableEq ε] [DecidableEq α] :
    DecidableEq (Except ε α) := fun x y =>
  match x, y with
  | .error a, .error b =>
    if h : a = b then .isTrue (by rw [h])
    else .isFalse (by intro hc; cases hc; exact h rfl)
  | .error _, .ok _ => .isFalse (by intro hc; cases hc)
  | .ok _, .error _ => .isFalse (by intro hc; cases hc)
  | .ok a, .ok b =>
    if h : a = b then .isTrue (by rw [h])
    else .isFalse (by intro hc; cases hc; exact h rfl)

/-- A listed key of manifest shape: more than 4 slash-separated parts, a
non-empty part 4 (the fixed-width time token) and the literal part
`manifest` at index 5. -/
def manifestShaped (key : String) : Prop :=
  (jsSplit '/' key).length > 4 ∧ ¬ (jsSplit '/' key).getD 4 "" = "" ∧
    (jsSplit '/' key).getD 5 "" = "manifest"

instance (key : String) : Decidable (manifestShaped key) := by
  unfold manifestShaped
  infer_instance

/-- The time token embedded in a listed key. -/
def timeTokenOf (key : String) : String := (jsSplit '/' key).getD 4 ""

theorem manifestKeep_eq (bound key : String) (hshape : manifestShaped key) :
    manifestKeep bound key = jsStrLt bound (timeTokenOf key) := by
  obtain ⟨h1, h2, h3⟩ := hshape
  unfold manifestKeep timeTokenOf
  simp only [h3, decide_eq_true_eq]
  rw [decide_eq_true h1]
  cases hq : (jsSplit '/' key).getD 4 "" == "" with
  | true => exact absurd (by simpa using hq) h2
  | false => simp

/-- C3 (amended): for a listed key of manifest shape on the watermark's own
day, the scanner includes it iff its fixed-width time token strictly exceeds
the watermark's `HHmmss0000` token; on any other day it includes the key iff
its token strictly exceeds the minimum token `0000000000` — so every entry of
a later day is included except one carrying exactly the minimum token, which
the strict comparison excludes. -/
theorem C3_intra_day_boundary (listObjects : String → Except String (List String))
    (day wm : Nat) (contents : List String)
    (hls : listObjects (folderPathOf day) = .ok contents)
    (key : String) (hk : key ∈ contents) (hshape : manifestShaped key) :
    (fmtYMD day = fmtYMD wm →
      ∃ out, processDailyManifests listObjects day wm = .ok out ∧
        (key ∈ out ↔ jsStrLt (fmtHHmmss wm ++ "0000") (timeTokenOf key) = true)) ∧
    (¬ fmtYMD day = fmtYMD wm →
      ∃ out, processDailyManifests listObjects day wm = .ok out ∧
        (key ∈ out ↔ jsStrLt "0000000000" (timeTokenOf key) = true)) := by
  constructor
  · intro hsame
    refine ⟨contents.filter (manifestKeep (fmtHHmmss wm ++ "0000")), ?_, ?_⟩
    · unfold processDailyManifests
      rw [hls]
      simp [hsame]
    · rw [List.mem_filter, manifestKeep_eq _ _ hshape]
      simp [hk]
  · intro hdiff
    refine ⟨contents.filter (manifestKeep "0000000000"), ?_, ?_⟩
    · unfold processDailyManifests
      rw [hls]
      have : (fmtYMD day == fmtYMD wm) = false := by
        simpa using hdiff
      simp [this]
    · rw [List.mem_filter, manifestKeep_eq _ _ hshape]
      simp [hk]

/-- Listing oracle for the C3 concrete runs: the later day holds two
manifests, one at exactly the minimum token and one just above it. -/
def C3listObjects : String → Except String (List String) := fun p =>
  if p == "pqa_trials/2024/01/02/" then
    .ok ["pqa_trials/2024/01/02/0000000000/manifest",
         "pqa_trials/2024/01/02/0000000001/manifest"]
  else .ok []

/-- Counterexample to C3 as stated: on a later day (watermark day 2024-01-01,
scanned day 2024-01-02) the listed manifest-shaped key with time token
exactly `0000000000` is NOT included — the scanner returns only the key with
the strictly greater token, though the claim says all manifest-type entries
of a later day are included. -/
theorem C3_min_token_excluded_counterexample :
    manifestShaped "pqa_trials/2024/01/02/0000000000/manifest" ∧
    ¬ fmtYMD 1704153600000 = fmtYMD 1704067200000 ∧
    C3listObjects (folderPathOf 1704153600000) =
      .ok ["pqa_trials/2024/01/02/0000000000/manifest",
           "pqa_trials/2024/01/02/0000000001/manifest"] ∧
    processDailyManifests C3listObjects 1704153600000 1704067200000 =
      .ok ["pqa_trials/2024/01/02/0000000001/manifest"] := by
  decide

/-- Witness for C3 (amended), at the same concrete day pair: the
minimum-token key is excluded and the greater-token key included, matching
the strict comparison. -/
theorem C3_intra_day_boundary_witness :
    ¬ fmtYMD 1704153600000 = fmtYMD 1704067200000 ∧
    ∃ out, processDailyManifests C3listObjects 1704153600000 1704067200000 = .ok out ∧
      ("pqa_trials/2024/01/02/0000000001/manifest" ∈ out ↔
        jsStrLt "0000000000" (timeTokenOf "pqa_trials/2024/01/02/0000000001/manifest") = true) := by
  refine ⟨by decide, ?_⟩
  exact (C3_intra_day_boundary C3listObjects 1704153600000 1704067200000
      ["pqa_trials/2024/01/02/0000000000/manifest",
       "pqa_trials/2024/01/02/0000000001/manifest"]
      (by decide) "pqa_trials/2024/01/02/0000000001/manifest" (by decide) (by decide)).2
    (by decide)

/-! ### C6: the watermark extractor -/

theorem find?_skip {α : Type} (pred : α → Bool) : ∀ (pre l : List α),
    (∀ p ∈ pre, pred p = false) → (pre ++ l).find? pred = l.find? pred := by
  intro pre
  induction pre with
  | nil => intro l _; rfl
  | cons x xs ih =>
    intro l hall
    have hx : pred x = false := hall x (by simp)
    rw [List.cons_append, List.find?_cons_of_neg _ (by simp [hx])]
    exact ih l (fun p hp => hall p (by simp [hp]))

/-- C6: the watermark extractor returns the timestamp parsed from the first
rule description (searching `rules[]` in order) that parses as a valid date —
rules before it with missing, empty or unparseable descriptions are skipped,
not fatal — and when no rule has a parseable description it returns the
configured fallback date and emits a diagnostic notification.  Totality of
`setLastUpdateDateFromSegment` is the never-throws property. -/
theorem C6_watermark_extractor (parseDesc : String → Option Nat) (fb : Nat) :
    (∀ (pre : List SegRule) (r : SegRule) (post : List SegRule),
      (∀ p ∈ pre, ruleDescValid parseDesc p = false) →
      ruleDescValid parseDesc r = true →
      ∃ d v, r.description = some d ∧ ¬ d = "" ∧ parseDesc d = some v ∧
        setLastUpdateDateFromSegment parseDesc fb ⟨pre ++ r :: post⟩ = (v, [])) ∧
    (∀ rules : List SegRule, (∀ p ∈ rules, ruleDescValid parseDesc p = false) →
      setLastUpdateDateFromSegment parseDesc fb ⟨rules⟩ = (fb, [Msg.fallbackUsed fb])) := by
  constructor
  · intro pre r post hpre hr
    obtain ⟨d, hd, hne, hsome⟩ : ∃ d, r.description = some d ∧ ¬ d = "" ∧ (parseDesc d).isSome := by
      unfold ruleDescValid at hr
      cases hdesc : r.description with
      | none => rw [hdesc] at hr; exact absurd hr (by simp)
      | some d =>
        rw [hdesc] at hr
        refine ⟨d, rfl, ?_, ?_⟩
        · intro hdd
          subst hdd
          simp at hr
        · exact (Bool.and_eq_true _ _ |>.mp hr).2
    obtain ⟨v, hv⟩ := Option.isSome_iff_exists.mp hsome
    refine ⟨d, v, hd, hne, hv, ?_⟩
    unfold setLastUpdateDateFromSegment
    have hfind : (pre ++ r :: post).find? (ruleDescValid parseDesc) = some r := by
      rw [find?_skip _ pre _ hpre, List.find?_cons_of_pos _ hr]
    simp only [hfind]
    rw [hd]
    simp [hv]
  · intro rules hall
    unfold setLastUpdateDateFromSegment
    have hfind : rules.find? (ruleDescValid parseDesc) = none :=
      List.find?_eq_none.mpr (fun x hx => by simp [hall x hx])
    simp only [hfind]

/-- The concrete parse oracle for the C6 witness. -/
def C6parse : String → Option Nat := fun s => if s == "good date" then some 42 else none

/-- Witness for C6 at concrete inputs: a first rule with an unparseable
description is skipped in favour of the second, and a rule list with no
parseable description falls back with a diagnostic message. -/
theorem C6_watermark_extractor_witness :
    setLastUpdateDateFromSegment C6parse 7
        ⟨[⟨some "garbage", []⟩, ⟨some "good date", []⟩]⟩ = (42, []) ∧
    setLastUpdateDateFromSegment C6parse 7 ⟨[⟨some "garbage", []⟩, ⟨none, []⟩]⟩ =
      (7, [Msg.fallbackUsed 7]) := by
  constructor
  · obtain ⟨d, v, hd, _, hv, heq⟩ :=
      (C6_watermark_extractor C6parse 7).1 [⟨some "garbage", []⟩] ⟨some "good date", []⟩ []
        (by decide) (by decide)
    have hd' : d = "good date" := by
      simpa using hd.symm
    subst hd'
    have hv' : v = 42 := by
      have : C6parse "good date" = some 42 := by decide
      rw [this] at hv
      simpa using hv.symm
    subst hv'
    exact heq
  · exact (C6_watermark_extractor C6parse 7).2 [⟨some "garbage", []⟩, ⟨none, []⟩] (by decide)

/-! ### Branch characterizations of the workflow -/

theorem workflow_scan_error_branch (w : World) (sd : SegmentData) (wm0 : Nat)
    (msgs0 : List Msg) (e : String)
    (hfetch : w.fetchResult = .ok sd)
    (hwm : setLastUpdateDateFromSegment w.parseDesc w.fallbackDate sd = (wm0, msgs0))
    (hscan : runScan w wm0 = .error e) :
    processLdRequestWorkflow w =
      { ok := false, patchCalled := false, patches := [], fileUrls := [], domains := [],
        msgs := msgs0 ++ [Msg.s3Error] } := by
  simp only [processLdRequestWorkflow, hfetch, hwm, hscan]

theorem workflow_resolve_error_branch (w : World) (sd : SegmentData) (wm0 : Nat)
    (msgs0 : List Msg) (manifests : List String) (e : String)
    (hfetch : w.fetchResult = .ok sd)
    (hwm : setLastUpdateDateFromSegment w.parseDesc w.fallbackDate sd = (wm0, msgs0))
    (hscan : runScan w wm0 = .ok manifests)
    (herr : (runResolve w manifests).1 = .error e) :
    processLdRequestWorkflow w =
      { ok := false, patchCalled := false, patches := [], fileUrls := [], domains := [],
        msgs := msgs0 ++ (runResolve w manifests).2 ++ [Msg.s3Error] } := by
  simp only [processLdRequestWorkflow, hfetch, hwm, hscan, herr]

theorem workflow_empty_branch (w : World) (sd : SegmentData) (wm0 : Nat)
    (msgs0 : List Msg) (manifests files : List String)
    (hfetch : w.fetchResult = .ok sd)
    (hwm : setLastUpdateDateFromSegment w.parseDesc w.fallbackDate sd = (wm0, msgs0))
    (hscan : runScan w wm0 = .ok manifests)
    (hres : (runResolve w manifests).1 = .ok files)
    (hdom : (runExtract w files).1 = []) :
    processLdRequestWorkflow w =
      { ok := true, patchCalled := false, patches := [], fileUrls := files,
        domains := (runExtract w files).1,
        msgs := msgs0 ++ (runResolve w manifests).2 ++ (runExtract w files).2 ++
          [Msg.success (.str (displayOfMs wm0)) 0] } := by
  simp only [processLdRequestWorkflow, hfetch, hwm, hscan, hres, hdom,
    List.isEmpty_nil, if_true]

theorem workflow_patch_branch (w : World) (sd : SegmentData) (wm0 : Nat)
    (msgs0 : List Msg) (manifests files : List String)
    (hfetch : w.fetchResult = .ok sd)
    (hwm : setLastUpdateDateFromSegment w.parseDesc w.fallbackDate sd = (wm0, msgs0))
    (hscan : runScan w wm0 = .ok manifests)
    (hres : (runResolve w manifests).1 = .ok files)
    (hdom : ¬ (runExtract w files).1 = []) :
    processLdRequestWorkflow w =
      { ok := true, patchCalled := true,
        patches := buildPatchOperations w.limit (mergePlan sd (runExtract w files).1).1
          (mergePlan sd (runExtract w files).1).2 (computeNewWatermark wm0 files).1,
        fileUrls := files, domains := (runExtract w files).1,
        msgs := msgs0 ++ (runResolve w manifests).2 ++ (runExtract w files).2 ++
          (computeNewWatermark wm0 files).2 ++
          (if w.patchOk then
            [Msg.success (computeNewWatermark wm0 files).1 (runExtract w files).1.length]
          else [Msg.patchFailed]) } := by
  have hne : (runExtract w files).1.isEmpty = false := by
    cases hq : (runExtract w files).1 with
    | nil => exact absurd hq hdom
    | cons a l => rfl
  simp only [processLdRequestWorkflow, hfetch, hwm, hscan, hres, hne,
    Bool.false_eq_true, if_false]

/-! ### C5: zero new domains -/

/-- C5: in every run whose deduplicated extracted domain set is empty, no
patch operation is sent to the rule service, a success notification carrying
zero additions and the unchanged watermark is emitted, and the run resolves
successfully. -/
theorem C5_zero_domains_short_circuit (w : World) (sd : SegmentData) (wm0 : Nat)
    (msgs0 : List Msg) (manifests files : List String)
    (hfetch : w.fetchResult = .ok sd)
    (hwm : setLastUpdateDateFromSegment w.parseDesc w.fallbackDate sd = (wm0, msgs0))
    (hscan : runScan w wm0 = .ok manifests)
    (hres : (runResolve w manifests).1 = .ok files)
    (hdom : (runExtract w files).1 = []) :
    (processLdRequestWorkflow w).ok = true ∧
    (processLdRequestWorkflow w).patchCalled = false ∧
    (processLdRequestWorkflow w).patches = [] ∧
    Msg.success (.str (displayOfMs wm0)) 0 ∈ (processLdRequestWorkflow w).msgs := by
  rw [workflow_empty_branch w sd wm0 msgs0 manifests files hfetch hwm hscan hres hdom]
  refine ⟨rfl, rfl, rfl, ?_⟩
  simp

/-- World for the C5 witness: no manifests at all, hence no files and no
domains. -/
def C5world : World :=
  { fetchResult := .ok ⟨[]⟩
    parseDesc := fun _ => none
    fallbackDate := 1704067200000
    now := 1704067200000
    bucket := "B"
    limit := "10"
    listObjects := fun _ => .ok []
    getManifest := fun _ => .error "unused"
    getFile := fun _ => .missing
    patchOk := true }

/-- Witness for C5 at the concrete empty-run world. -/
theorem C5_zero_domains_short_circuit_witness :
    (processLdRequestWorkflow C5world).ok = true ∧
    (processLdRequestWorkflow C5world).patchCalled = false ∧
    (processLdRequestWorkflow C5world).patches = [] ∧
    Msg.success (.str (displayOfMs 1704067200000)) 0 ∈ (processLdRequestWorkflow C5world).msgs :=
  C5_zero_domains_short_circuit C5world ⟨[]⟩ 1704067200000
    [Msg.fallbackUsed 1704067200000] [] [] (by decide) (by decide) (by decide)
    (by decide) (by decide)

/-! ### C8: malformed trailing token -/

theorem chunkLoop_description (limit : String) (vals : List String) (t : String) (d : JsVal) :
    ∀ (fuel : Nat) (count : String) (isFirst : Bool),
    ∀ op ∈ chunkLoop limit vals t d fuel count isFirst, op.description = d := by
  intro fuel
  induction fuel with
  | zero => intro count isFirst op h; simp [chunkLoop] at h
  | succ fuel ih =>
    intro count isFirst op h
    rw [chunkLoop] at h
    by_cases hc : jsToNat count < vals.length
    · simp only [hc, if_true, List.mem_cons] at h
      rcases h with h | h
      · rw [h]
        rfl
      · exact ih (count ++ limit) false op h
    · simp [hc] at h

/-- Every emitted patch operation carries the (possibly updated) watermark as
its description. -/
theorem buildPatchOperations_description (limit : String) (vals : List String)
    (t : String) (d : JsVal) :
    ∀ op ∈ buildPatchOperations limit vals t d, op.description = d := by
  intro op h
  unfold buildPatchOperations at h
  by_cases hgt : vals.length > jsToNat limit
  · rw [if_pos hgt] at h
    exact chunkLoop_description limit vals t d _ "0" true op h
  · rw [if_neg hgt] at h
    simp only [List.mem_singleton] at h
    rw [h]
    rfl

/-- At least one patch operation is always emitted: either the single
within-limit operation, or a first chunk (the merged length exceeds the
non-negative coerced limit, so it is positive). -/
theorem buildPatchOperations_ne_nil (limit : String) (vals : List String)
    (t : String) (d : JsVal) :
    ¬ buildPatchOperations limit vals t d = [] := by
  unfold buildPatchOperations
  by_cases hgt : vals.length > jsToNat limit
  · rw [if_pos hgt]
    have hlen : 0 < vals.length := by omega
    rw [show vals.length + 1 = vals.length + 1 from rfl, chunkLoop]
    have h0 : jsToNat "0" = 0 := rfl
    rw [h0, if_pos hlen]
    simp
  · rw [if_neg hgt]
    simp

theorem computeNewWatermark_invalid (wm0 : Nat) (files : List String) (u : String)
    (hlast : files.getLast? = some u) (hne : ¬ u = "")
    (htok : (jsSplit '/' u)[7]? = none ∨
      ∃ t, (jsSplit '/' u)[7]? = some t ∧ (t = "" ∨ ¬ t.length = 10)) :
    computeNewWatermark wm0 files = (.date wm0, [Msg.invalidToken u]) := by
  have hne' : (u == "") = false := by
    simpa using hne
  unfold computeNewWatermark
  rcases htok with h | ⟨t, ht, hbad⟩
  · simp only [hlast, hne', Bool.false_eq_true, if_false, h]
  · have hcond : (!(t == "") && t.length == 10) = false := by
      rcases hbad with hb | hb
      · rw [hb]
        rfl
      · have : (t.length == 10) = false := by
          simpa using hb
        rw [this, Bool.and_false]
    simp only [hlast, hne', ht, hcond, Bool.false_eq_true, if_false]

/-- With the last collected URL equal to the empty string the source's
`if (lastFilePath)` truthiness guard skips the watermark block silently:
the watermark is kept and NO message is sent. -/
theorem computeNewWatermark_empty_last (wm0 : Nat) (files : List String)
    (hlast : files.getLast? = some "") :
    computeNewWatermark wm0 files = (.date wm0, []) := by
  unfold computeNewWatermark
  simp only [hlast]
  rfl

theorem setLastUpdateDateFromSegment_msgs (p : String → Option Nat) (fb : Nat)
    (sd : SegmentData) :
    ∀ m ∈ (setLastUpdateDateFromSegment p fb sd).2, m = Msg.fallbackUsed fb := by
  intro m hm
  unfold setLastUpdateDateFromSegment at hm
  cases hfind : sd.rules.find? (ruleDescValid p) with
  | some r =>
    rw [hfind] at hm
    simp at hm
  | none =>
    rw [hfind] at hm
    simpa using hm

theorem runResolve_msgs (w : World) (manifests : List String) :
    ∀ m ∈ (runResolve w manifests).2, ∃ p, m = Msg.manifestError p := by
  intro m hm
  simp only [runResolve, List.mem_filterMap] at hm
  obtain ⟨pr, _, hpr⟩ := hm
  cases hr : pr.2 with
  | error a =>
    rw [hr] at hpr
    simp only [Option.some_inj] at hpr
    exact ⟨pr.1, hpr.symm⟩
  | ok a =>
    rw [hr] at hpr
    simp at hpr

theorem runExtract_msgs (w : World) (urls : List String) :
    ∀ m ∈ (runExtract w urls).2, ∃ k, m = Msg.fileMissing k := by
  intro m hm
  simp only [runExtract, List.mem_flatten] at hm
  obtain ⟨l, hl, hml⟩ := hm
  simp only [List.mem_map] at hl
  obtain ⟨pr, hpr, hsnd⟩ := hl
  obtain ⟨u, _, hfc⟩ := hpr
  subst hfc
  subst hsnd
  unfold fileContribution at hml
  cases hgf : w.getFile (jsReplaceFirst u ("s3://" ++ w.bucket ++ "/") "") with
  | missing =>
    simp only [hgf] at hml
    simp only [List.mem_singleton] at hml
    exact ⟨_, hml⟩
  | failure =>
    simp only [hgf] at hml
    simp at hml
  | rows cells =>
    simp only [hgf] at hml
    simp at hml

theorem computeNewWatermark_msgs (wm0 : Nat) (urls : List String) :
    ∀ m ∈ (computeNewWatermark wm0 urls).2, ∃ p, m = Msg.invalidToken p := by
  intro m hm
  unfold computeNewWatermark at hm
  cases hlast : urls.getLast? with
  | none =>
    rw [hlast] at hm
    simp at hm
  | some u =>
    rw [hlast] at hm
    cases hq : u == "" with
    | true =>
      simp only [hq, if_true] at hm
      simp at hm
    | false =>
      simp only [hq, Bool.false_eq_true, if_false] at hm
      cases htok : (jsSplit '/' u)[7]? with
      | none =>
        simp only [htok, List.mem_singleton] at hm
        exact ⟨u, hm⟩
      | some t =>
        simp only [htok] at hm
        by_cases hc : (!(t == "") && t.length == 10) = true
        · rw [if_pos hc] at hm
          simp at hm
        · rw [if_neg hc] at hm
          simp only [List.mem_singleton] at hm
          exact ⟨u, hm⟩

/-- C8 (amended): when the run reaches the watermark-update step (some
domains were extracted) and the last collected data-file reference's embedded
timestamp token is absent, empty or not exactly 10 characters long, the
watermark update is skipped, the prior watermark is carried forward
unchanged as the description of every patch operation, and the run still
sends the new domains and resolves successfully; the invalid-token
notification is sent exactly when the last reference itself is non-empty —
for an empty-string last reference the source's `if (lastFilePath)`
truthiness guard skips the block silently, and no invalid-token notification
is sent at all. -/
theorem C8_malformed_token_carry_forward (w : World) (sd : SegmentData) (wm0 : Nat)
    (msgs0 : List Msg) (manifests files : List String) (u : String)
    (hfetch : w.fetchResult = .ok sd)
    (hwm : setLastUpdateDateFromSegment w.parseDesc w.fallbackDate sd = (wm0, msgs0))
    (hscan : runScan w wm0 = .ok manifests)
    (hres : (runResolve w manifests).1 = .ok files)
    (hdom : ¬ (runExtract w files).1 = [])
    (hlast : files.getLast? = some u)
    (htok : (jsSplit '/' u)[7]? = none ∨
      ∃ t, (jsSplit '/' u)[7]? = some t ∧ (t = "" ∨ ¬ t.length = 10)) :
    (¬ u = "" → Msg.invalidToken u ∈ (processLdRequestWorkflow w).msgs) ∧
    (u = "" → ∀ p, ¬ Msg.invalidToken p ∈ (processLdRequestWorkflow w).msgs) ∧
    (∀ op ∈ (processLdRequestWorkflow w).patches, op.description = JsVal.date wm0) ∧
    (processLdRequestWorkflow w).patchCalled = true ∧
    ¬ (processLdRequestWorkflow w).patches = [] ∧
    (processLdRequestWorkflow w).ok = true := by
  have hwf := workflow_patch_branch w sd wm0 msgs0 manifests files hfetch hwm hscan hres hdom
  have hkeep : (computeNewWatermark wm0 files).1 = JsVal.date wm0 := by
    by_cases hu : u = ""
    · subst hu
      rw [computeNewWatermark_empty_last wm0 files hlast]
    · rw [computeNewWatermark_invalid wm0 files u hlast hu htok]
  refine ⟨?_, ?_, ?_, by rw [hwf], ?_, by rw [hwf]⟩
  · intro hu
    have hinv := computeNewWatermark_invalid wm0 files u hlast hu htok
    rw [hwf]
    simp [hinv]
  · intro hu p hmem
    subst hu
    have hemp := computeNewWatermark_empty_last wm0 files hlast
    have hmsgs0 : msgs0 = (setLastUpdateDateFromSegment w.parseDesc w.fallbackDate sd).2 := by
      rw [hwm]
    rw [hwf] at hmem
    simp only [hemp, List.append_nil, List.mem_append] at hmem
    rcases hmem with ((hmem | hmem) | hmem) | hmem
    · rw [hmsgs0] at hmem
      have := setLastUpdateDateFromSegment_msgs w.parseDesc w.fallbackDate sd _ hmem
      simp at this
    · obtain ⟨q, hq⟩ := runResolve_msgs w manifests _ hmem
      simp at hq
    · obtain ⟨k, hk⟩ := runExtract_msgs w files _ hmem
      simp at hk
    · by_cases hp : w.patchOk = true
      · simp [hp] at hmem
      · simp [hp] at hmem
  · intro op hop
    rw [hwf] at hop
    have hdesc := buildPatchOperations_description w.limit (mergePlan sd (runExtract w files).1).1
      (mergePlan sd (runExtract w files).1).2 (computeNewWatermark wm0 files).1 op hop
    rw [hdesc, hkeep]
  · rw [hwf]
    exact buildPatchOperations_ne_nil _ _ _ _

/-- World for the C8 witness: one manifest whose single data file has an
8-character trailing token. -/
def C8world : World :=
  { fetchResult := .ok ⟨[]⟩
    parseDesc := fun _ => none
    fallbackDate := 1704067200000
    now := 1704067200000
    bucket := "B"
    limit := "10"
    listObjects := fun p =>
      if p == "pqa_trials/2024/01/01/" then
        .ok ["pqa_trials/2024/01/01/0100000000/manifest"]
      else .ok []
    getManifest := fun p =>
      if p == "pqa_trials/2024/01/01/0100000000/manifest" then
        .ok ["s3://B/pqa_trials/2024/01/01/01000000/f1.gz"]
      else .error "unknown manifest"
    getFile := fun k =>
      if k == "pqa_trials/2024/01/01/01000000/f1.gz" then .rows ["x.com"] else .missing
    patchOk := true }

/-- Witness for C8 (amended) at the concrete malformed-token world. -/
theorem C8_malformed_token_carry_forward_witness :
    (¬ "s3://B/pqa_trials/2024/01/01/01000000/f1.gz" = "" →
      Msg.invalidToken "s3://B/pqa_trials/2024/01/01/01000000/f1.gz" ∈
        (processLdRequestWorkflow C8world).msgs) ∧
    ("s3://B/pqa_trials/2024/01/01/01000000/f1.gz" = "" →
      ∀ p, ¬ Msg.invalidToken p ∈ (processLdRequestWorkflow C8world).msgs) ∧
    (∀ op ∈ (processLdRequestWorkflow C8world).patches,
      op.description = JsVal.date 1704067200000) ∧
    (processLdRequestWorkflow C8world).patchCalled = true ∧
    ¬ (processLdRequestWorkflow C8world).patches = [] ∧
    (processLdRequestWorkflow C8world).ok = true :=
  C8_malformed_token_carry_forward C8world ⟨[]⟩ 1704067200000
    [Msg.fallbackUsed 1704067200000] ["pqa_trials/2024/01/01/0100000000/manifest"]
    ["s3://B/pqa_trials/2024/01/01/01000000/f1.gz"]
    "s3://B/pqa_trials/2024/01/01/01000000/f1.gz"
    (by decide) (by decide) (by decide) (by decide) (by decide) (by decide)
    (Or.inr ⟨"01000000", by decide, Or.inr (by decide)⟩)

/-- World for the C8 counterexample: the manifest's last entry is the empty
string (a falsy URL in JS), listed after a real data file that yields one
domain.  The empty key's fetch fails with a non-NoSuchKey error, which the
per-file task swallows. -/
def C8worldE : World :=
  { fetchResult := .ok ⟨[]⟩
    parseDesc := fun _ => none
    fallbackDate := 1704067200000
    now := 1704067200000
    bucket := "B"
    limit := "10"
    listObjects := fun p =>
      if p == "pqa_trials/2024/01/01/" then
        .ok ["pqa_trials/2024/01/01/0100000000/manifest"]
      else .ok []
    getManifest := fun p =>
      if p == "pqa_trials/2024/01/01/0100000000/manifest" then
        .ok ["s3://B/pqa_trials/2024/01/01/0100000000/f1.gz", ""]
      else .error "unknown manifest"
    getFile := fun k =>
      if k == "pqa_trials/2024/01/01/0100000000/f1.gz" then .rows ["x.com"] else .failure
    patchOk := true }

/-- Counterexample to C8 as stated: in this run the last collected data-file
reference is the empty string, whose embedded timestamp token is absent
(hence not exactly 10 characters long); the prior watermark is indeed
carried forward unchanged into the patch description and the run still
writes the new domain, but NO notification is sent — the run's complete
message list holds only the fallback diagnostic and the success message,
no invalid-token message, because the JS truthiness guard
`if (lastFilePath)` skips the whole block silently. -/
theorem C8_empty_last_reference_counterexample :
    (processLdRequestWorkflow C8worldE).fileUrls.getLast? = some "" ∧
    (jsSplit '/' "")[7]? = none ∧
    ¬ (processLdRequestWorkflow C8worldE).domains = [] ∧
    (processLdRequestWorkflow C8worldE).patchCalled = true ∧
    (processLdRequestWorkflow C8worldE).patches.map PatchOp.description =
      [JsVal.date 1704067200000] ∧
    (processLdRequestWorkflow C8worldE).msgs =
      [Msg.fallbackUsed 1704067200000, Msg.success (JsVal.date 1704067200000) 1] := by
  decide

/-! ### C7: per-file tolerance vs. manifest fail-fast -/

theorem exceptAll_error_of_mem {α : Type} (l : List (Except String α)) (e : String)
    (h : Except.error e ∈ l) : ∃ e', exceptAll l = .error e' := by
  induction l with
  | nil => simp at h
  | cons x xs ih =>
    cases x with
    | error a => exact ⟨a, rfl⟩
    | ok a =>
      have hx : Except.error e ∈ xs := by
        rcases List.mem_cons.mp h with hh | hh
        · exact absurd hh (by simp)
        · exact hh
      obtain ⟨e', he'⟩ := ih hx
      refine ⟨e', ?_⟩
      simp [exceptAll, he']

theorem runResolve_error (w : World) (manifests : List String) (m e : String)
    (hm : m ∈ manifests) (he : w.getManifest m = .error e) :
    ∃ e', (runResolve w manifests).1 = .error e' := by
  have hmem : Except.error e ∈ (manifests.map (fun p => (p, w.getManifest p))).map Prod.snd := by
    simp only [List.map_map]
    refine List.mem_map.mpr ⟨m, hm, ?_⟩
    simp [he]
  obtain ⟨e', he'⟩ := exceptAll_error_of_mem _ e hmem
  refine ⟨e', ?_⟩
  unfold runResolve
  simp only [he']

/-- C7: a missing ("not found" or empty) result for one individual data file
yields an empty contribution for that file only — removing it from the
collected URL list leaves the extracted domain set unchanged — and can never
fail the run: once the manifest stage has resolved, the workflow resolves
successfully whatever the per-file outcomes are.  By contrast, a fetch/parse
error for any collected manifest makes the whole run reject and the handler
report a 500. -/
theorem C7_failure_isolation (w : World) :
    (∀ (us₁ us₂ : List String) (u : String),
      w.getFile (jsReplaceFirst u ("s3://" ++ w.bucket ++ "/") "") = .missing →
      (runExtract w (us₁ ++ u :: us₂)).1 = (runExtract w (us₁ ++ us₂)).1) ∧
    (∀ (sd : SegmentData) (wm0 : Nat) (msgs0 : List Msg) (manifests files : List String),
      w.fetchResult = .ok sd →
      setLastUpdateDateFromSegment w.parseDesc w.fallbackDate sd = (wm0, msgs0) →
      runScan w wm0 = .ok manifests →
      (runResolve w manifests).1 = .ok files →
      (processLdRequestWorkflow w).ok = true) ∧
    (∀ (sd : SegmentData) (wm0 : Nat) (msgs0 : List Msg) (manifests : List String)
        (m e : String),
      w.fetchResult = .ok sd →
      setLastUpdateDateFromSegment w.parseDesc w.fallbackDate sd = (wm0, msgs0) →
      runScan w wm0 = .ok manifests →
      m ∈ manifests → w.getManifest m = .error e →
      (processLdRequestWorkflow w).ok = false ∧ (handler w).1 = 500) := by
  refine ⟨?_, ?_, ?_⟩
  · intro us₁ us₂ u hmiss
    have hcon : fileContribution w.getFile w.bucket u =
        ([], [Msg.fileMissing (jsReplaceFirst u ("s3://" ++ w.bucket ++ "/") "")]) := by
      simp only [fileContribution, hmiss]
    simp only [runExtract, List.map_append, List.map_cons, List.flatten_append,
      List.flatten_cons, hcon]
    simp
  · intro sd wm0 msgs0 manifests files hfetch hwm hscan hres
    by_cases hdom : (runExtract w files).1 = []
    · rw [workflow_empty_branch w sd wm0 msgs0 manifests files hfetch hwm hscan hres hdom]
    · rw [workflow_patch_branch w sd wm0 msgs0 manifests files hfetch hwm hscan hres hdom]
  · intro sd wm0 msgs0 manifests m e hfetch hwm hscan hm he
    obtain ⟨e', he'⟩ := runResolve_error w manifests m e hm he
    rw [workflow_resolve_error_branch w sd wm0 msgs0 manifests e' hfetch hwm hscan he']
    constructor
    · rfl
    · unfold handler
      rw [workflow_resolve_error_branch w sd wm0 msgs0 manifests e' hfetch hwm hscan he']
      simp

/-- World for the C7 witness with one present and one missing data file. -/
def C7worldA : World :=
  { fetchResult := .ok ⟨[]⟩
    parseDesc := fun _ => none
    fallbackDate := 1704067200000
    now := 1704067200000
    bucket := "B"
    limit := "10"
    listObjects := fun p =>
      if p == "pqa_trials/2024/01/01/" then
        .ok ["pqa_trials/2024/01/01/0100000000/manifest"]
      else .ok []
    getManifest := fun p =>
      if p == "pqa_trials/2024/01/01/0100000000/manifest" then
        .ok ["s3://B/pqa_trials/2024/01/01/0100000000/f1.gz",
             "s3://B/pqa_trials/2024/01/01/0100000000/gone.gz"]
      else .error "unknown manifest"
    getFile := fun k =>
      if k == "pqa_trials/2024/01/01/0100000000/f1.gz" then .rows ["x.com"] else .missing
    patchOk := true }

/-- The same world with a failing manifest fetch. -/
def C7worldC : World := { C7worldA with getManifest := fun _ => .error "transport error" }

/-- Witness for C7: the missing second file contributes nothing and the run
still succeeds; the failing manifest aborts the run with a 500. -/
theorem C7_failure_isolation_witness :
    (runExtract C7worldA (["s3://B/pqa_trials/2024/01/01/0100000000/f1.gz"] ++
        "s3://B/pqa_trials/2024/01/01/0100000000/gone.gz" :: [])).1 =
      (runExtract C7worldA (["s3://B/pqa_trials/2024/01/01/0100000000/f1.gz"] ++ [])).1 ∧
    (processLdRequestWorkflow C7worldA).ok = true ∧
    ((processLdRequestWorkflow C7worldC).ok = false ∧ (handler C7worldC).1 = 500) :=
  ⟨(C7_failure_isolation C7worldA).1 ["s3://B/pqa_trials/2024/01/01/0100000000/f1.gz"] []
      "s3://B/pqa_trials/2024/01/01/0100000000/gone.gz" (by decide),
   (C7_failure_isolation C7worldA).2.1 ⟨[]⟩ 1704067200000
      [Msg.fallbackUsed 1704067200000] ["pqa_trials/2024/01/01/0100000000/manifest"]
      ["s3://B/pqa_trials/2024/01/01/0100000000/f1.gz",
       "s3://B/pqa_trials/2024/01/01/0100000000/gone.gz"]
      (by decide) (by decide) (by decide) (by decide),
   (C7_failure_isolation C7worldC).2.2 ⟨[]⟩ 1704067200000
      [Msg.fallbackUsed 1704067200000] ["pqa_trials/2024/01/01/0100000000/manifest"]
      "pqa_trials/2024/01/01/0100000000/manifest" "transport error"
      (by decide) (by decide) (by decide) (by decide) (by decide)⟩

/-! ### C4: error reporting and the PATCH write-back failure -/

/-- C4 (amended): every error that propagates out of the workflow makes the
handler report a failed (500) outcome with a failure notification; but a
rule-service PATCH failure (non-2xx response) does NOT fail the run — a
patch-failed notification is recorded (by the REST wrapper), the success
notification is suppressed, and the workflow returns normally, so the handler
reports success (200). -/
theorem C4_error_reporting (w : World) :
    ((processLdRequestWorkflow w).ok = false →
      (handler w).1 = 500 ∧ Msg.handlerFailure ∈ (handler w).2) ∧
    (∀ (sd : SegmentData) (wm0 : Nat) (msgs0 : List Msg) (manifests files : List String),
      w.fetchResult = .ok sd →
      setLastUpdateDateFromSegment w.parseDesc w.fallbackDate sd = (wm0, msgs0) →
      runScan w wm0 = .ok manifests →
      (runResolve w manifests).1 = .ok files →
      ¬ (runExtract w files).1 = [] →
      w.patchOk = false →
      (processLdRequestWorkflow w).patchCalled = true ∧
      Msg.patchFailed ∈ (processLdRequestWorkflow w).msgs ∧
      (∀ (wmv : JsVal) (n : Nat), ¬ Msg.success wmv n ∈ (processLdRequestWorkflow w).msgs) ∧
      (handler w).1 = 200) := by
  constructor
  · intro h
    constructor
    · simp [handler, h]
    · simp [handler, h]
  · intro sd wm0 msgs0 manifests files hfetch hwm hscan hres hdom hpatch
    have hwf := workflow_patch_branch w sd wm0 msgs0 manifests files hfetch hwm hscan hres hdom
    have hmsgs0 : msgs0 = (setLastUpdateDateFromSegment w.parseDesc w.fallbackDate sd).2 := by
      rw [hwm]
    refine ⟨by rw [hwf], ?_, ?_, ?_⟩
    · rw [hwf]
      simp [hpatch]
    · intro wmv n hmem
      rw [hwf] at hmem
      simp only [hpatch, Bool.false_eq_true, if_false, List.mem_append] at hmem
      rcases hmem with ((((hmem | hmem) | hmem) | hmem) | hmem)
      · rw [hmsgs0] at hmem
        have := setLastUpdateDateFromSegment_msgs w.parseDesc w.fallbackDate sd _ hmem
        simp at this
      · obtain ⟨p, hp⟩ := runResolve_msgs w manifests _ hmem
        simp at hp
      · obtain ⟨k, hk⟩ := runExtract_msgs w files _ hmem
        simp at hk
      · obtain ⟨p, hp⟩ := computeNewWatermark_msgs wm0 files _ hmem
        simp at hp
      · simp at hmem
    · unfold handler
      rw [hwf]
      simp

/-- World for the C4 counterexample and witness: a normal run whose LD PATCH
request fails (non-2xx). -/
def C4world : World :=
  { fetchResult := .ok ⟨[]⟩
    parseDesc := fun _ => none
    fallbackDate := 1704067200000
    now := 1704067200000
    bucket := "B"
    limit := "10"
    listObjects := fun p =>
      if p == "pqa_trials/2024/01/01/" then
        .ok ["pqa_trials/2024/01/01/0100000000/manifest"]
      else .ok []
    getManifest := fun p =>
      if p == "pqa_trials/2024/01/01/0100000000/manifest" then
        .ok ["s3://B/pqa_trials/2024/01/01/0100000000/f1.gz"]
      else .error "unknown manifest"
    getFile := fun k =>
      if k == "pqa_trials/2024/01/01/0100000000/f1.gz" then .rows ["x.com"] else .missing
    patchOk := false }

/-- Counterexample to C4 as stated: in this run the rule-service PATCH fails
(`patchOk = false`, the patch was issued), yet the workflow resolves and the
handler returns 200 — the run does NOT end in a failed status.  The failure
is reported and the success notification is indeed absent. -/
theorem C4_patch_failure_counterexample :
    C4world.patchOk = false ∧
    (processLdRequestWorkflow C4world).patchCalled = true ∧
    Msg.patchFailed ∈ (processLdRequestWorkflow C4world).msgs ∧
    (handler C4world).1 = 200 ∧
    ¬ (handler C4world).1 = 500 := by
  decide

/-- Witness for C4 (amended): part one at the failing-manifest world, part
two at the failing-PATCH world. -/
theorem C4_error_reporting_witness :
    ((handler C7worldC).1 = 500 ∧ Msg.handlerFailure ∈ (handler C7worldC).2) ∧
    ((processLdRequestWorkflow C4world).patchCalled = true ∧
      Msg.patchFailed ∈ (processLdRequestWorkflow C4world).msgs ∧
      (∀ (wmv : JsVal) (n : Nat),
        ¬ Msg.success wmv n ∈ (processLdRequestWorkflow C4world).msgs) ∧
      (handler C4world).1 = 200) :=
  ⟨(C4_error_reporting C7worldC).1 (by decide),
   (C4_error_reporting C4world).2 ⟨[]⟩ 1704067200000
      [Msg.fallbackUsed 1704067200000] ["pqa_trials/2024/01/01/0100000000/manifest"]
      ["s3://B/pqa_trials/2024/01/01/0100000000/f1.gz"]
      (by decide) (by decide) (by decide) (by decide) (by decide) (by decide)⟩

/-! ### C1: the new watermark and the chronologically greatest reference -/

theorem strLtAux_irrefl (cs : List Char) : strLtAux cs cs = false := by
  induction cs with
  | nil => rfl
  | cons c cs ih => simp [strLtAux, ih]

theorem jsStrLt_irrefl (s : String) : jsStrLt s s = false := strLtAux_irrefl s.data

theorem getLast_pairwise_max {α : Type} (r : α → α → Prop) :
    ∀ (l : List α) (u : α), l.getLast? = some u → l.Pairwise r →
      ∀ v ∈ l, v = u ∨ r v u := by
  intro l
  induction l with
  | nil => intro u h; simp at h
  | cons x xs ih =>
    intro u hlast hp v hv
    cases xs with
    | nil =>
      simp only [List.getLast?_singleton, Option.some_inj] at hlast
      simp only [List.mem_singleton] at hv
      exact Or.inl (hv.trans hlast)
    | cons y ys =>
      have hlast' : (y :: ys).getLast? = some u := by
        rw [← hlast, List.getLast?_cons_cons]
      have hp' : (y :: ys).Pairwise r := (List.pairwise_cons.mp hp).2
      rcases List.mem_cons.mp hv with hvx | hvtail
      · have hu : u ∈ y :: ys := by
          have hx : u ∈ (y :: ys).getLast? := Option.mem_def.mpr hlast'
          obtain ⟨hne, heq⟩ := List.mem_getLast?_eq_getLast hx
          rw [heq]
          exact List.getLast_mem hne
        exact Or.inr (hvx ▸ (List.pairwise_cons.mp hp).1 u hu)
      · exact ih u hlast' hp' v hvtail

theorem computeNewWatermark_valid (wm0 : Nat) (files : List String) (u t : String)
    (hlast : files.getLast? = some u)
    (htok : (jsSplit '/' u)[7]? = some t) (htne : ¬ t = "") (htlen : t.length = 10) :
    computeNewWatermark wm0 files =
      (.str (displayOfIso (formatDateTimeString (jsSplit '/' u) t)), []) := by
  have hne' : (u == "") = false := by
    cases hq : u == "" with
    | false => rfl
    | true =>
      have hu : u = "" := by
        simpa using hq
      subst hu
      rw [show (jsSplit '/' "")[7]? = (none : Option String) from rfl] at htok
      cases htok
  unfold computeNewWatermark
  have hcond : (!(t == "") && t.length == 10) = true := by
    simp [htne, htlen]
  simp only [hlast, hne', Bool.false_eq_true, if_false, htok, hcond, if_true]

/-- The composite (year, month, day, time) key of a data-file reference:
path segments 4–7 when split on `/` (the path convention of the data-file
URLs), concatenated — the same composite order §4.5 sorts manifests by. -/
def fileSortKey (url : String) : String :=
  let parts := jsSplit '/' url
  parts.getD 4 "undefined" ++ parts.getD 5 "undefined" ++
    parts.getD 6 "undefined" ++ parts.getD 7 "undefined"

/-- C1 (amended): the new watermark written into every patch description is
the timestamp embedded in the LAST collected data-file reference — the final
element of `allFileUrls`, i.e. the concatenation, in sorted-manifest order,
of each manifest's entries in their listed order.  Whenever that concatenated
reference list is itself ascending in the composite (year, month, day, time)
key, the last reference attains the maximum key, and the claim's statement
holds; completion order of the concurrent scans and fetches is irrelevant
either way, but the entry order inside manifests is not. -/
theorem C1_watermark_from_last_file (w : World) (sd : SegmentData) (wm0 : Nat)
    (msgs0 : List Msg) (manifests files : List String) (u t : String)
    (hfetch : w.fetchResult = .ok sd)
    (hwm : setLastUpdateDateFromSegment w.parseDesc w.fallbackDate sd = (wm0, msgs0))
    (hscan : runScan w wm0 = .ok manifests)
    (hres : (runResolve w manifests).1 = .ok files)
    (hdom : ¬ (runExtract w files).1 = [])
    (hlast : files.getLast? = some u)
    (htok : (jsSplit '/' u)[7]? = some t) (htne : ¬ t = "") (htlen : t.length = 10)
    (hsorted : files.Pairwise (fun a b => jsStrLt (fileSortKey b) (fileSortKey a) = false)) :
    (∀ v ∈ files, jsStrLt (fileSortKey u) (fileSortKey v) = false) ∧
    (∀ op ∈ (processLdRequestWorkflow w).patches,
      op.description = JsVal.str (displayOfIso (formatDateTimeString (jsSplit '/' u) t))) ∧
    (processLdRequestWorkflow w).patchCalled = true ∧
    ¬ (processLdRequestWorkflow w).patches = [] := by
  have hval := computeNewWatermark_valid wm0 files u t hlast htok htne htlen
  have hwf := workflow_patch_branch w sd wm0 msgs0 manifests files hfetch hwm hscan hres hdom
  refine ⟨?_, ?_, by rw [hwf], ?_⟩
  · intro v hv
    rcases getLast_pairwise_max _ files u hlast hsorted v hv with hvu | hvu
    · rw [hvu]
      exact jsStrLt_irrefl _
    · exact hvu
  · intro op hop
    rw [hwf] at hop
    have := buildPatchOperations_description w.limit (mergePlan sd (runExtract w files).1).1
      (mergePlan sd (runExtract w files).1).2 (computeNewWatermark wm0 files).1 op hop
    rw [this, hval]
  · rw [hwf]
    exact buildPatchOperations_ne_nil _ _ _ _

/-- World for the C1 counterexample: one manifest listing its two data files
in DESCENDING timestamp order. -/
def C1world : World :=
  { fetchResult := .ok ⟨[]⟩
    parseDesc := fun _ => none
    fallbackDate := 1704067200000
    now := 1704067200000
    bucket := "B"
    limit := "10"
    listObjects := fun p =>
      if p == "pqa_trials/2024/01/01/" then
        .ok ["pqa_trials/2024/01/01/0100000000/manifest"]
      else .ok []
    getManifest := fun p =>
      if p == "pqa_trials/2024/01/01/0100000000/manifest" then
        .ok ["s3://B/pqa_trials/2024/01/01/0200000000/f2.gz",
             "s3://B/pqa_trials/2024/01/01/0100000000/f1.gz"]
      else .error "unknown manifest"
    getFile := fun k =>
      if k == "pqa_trials/2024/01/01/0200000000/f2.gz" then .rows ["a.com"]
      else if k == "pqa_trials/2024/01/01/0100000000/f1.gz" then .rows ["b.com"]
      else .missing
    patchOk := true }

/-- Counterexample to C1 as stated: the run collects two data-file
references, of which `f2` (02:00) has the strictly greatest composite key,
yet the patch description carries the 01:00 timestamp of `f1` — the LAST
listed entry of the manifest — because the source never sorts `allFileUrls`,
only the manifest keys. -/
theorem C1_watermark_counterexample :
    (processLdRequestWorkflow C1world).fileUrls =
      ["s3://B/pqa_trials/2024/01/01/0200000000/f2.gz",
       "s3://B/pqa_trials/2024/01/01/0100000000/f1.gz"] ∧
    jsStrLt (fileSortKey "s3://B/pqa_trials/2024/01/01/0100000000/f1.gz")
        (fileSortKey "s3://B/pqa_trials/2024/01/01/0200000000/f2.gz") = true ∧
    (processLdRequestWorkflow C1world).patches.map PatchOp.description =
      [JsVal.str "January 1, 2024, 1:00:00 AM UTC"] ∧
    ¬ JsVal.str (displayOfIso (formatDateTimeString
        (jsSplit '/' "s3://B/pqa_trials/2024/01/01/0200000000/f2.gz") "0200000000")) =
      JsVal.str "January 1, 2024, 1:00:00 AM UTC" := by
  decide

/-- The C1 world with the manifest's entries listed in ascending order. -/
def C1worldS : World :=
  { C1world with
    getManifest := fun p =>
      if p == "pqa_trials/2024/01/01/0100000000/manifest" then
        .ok ["s3://B/pqa_trials/2024/01/01/0100000000/f1.gz",
             "s3://B/pqa_trials/2024/01/01/0200000000/f2.gz"]
      else .error "unknown manifest" }

/-- Witness for C1 (amended) at the ascending-order world. -/
theorem C1_watermark_from_last_file_witness :
    (∀ v ∈ ["s3://B/pqa_trials/2024/01/01/0100000000/f1.gz",
            "s3://B/pqa_trials/2024/01/01/0200000000/f2.gz"],
      jsStrLt (fileSortKey "s3://B/pqa_trials/2024/01/01/0200000000/f2.gz")
        (fileSortKey v) = false) ∧
    (∀ op ∈ (processLdRequestWorkflow C1worldS).patches,
      op.description = JsVal.str (displayOfIso (formatDateTimeString
        (jsSplit '/' "s3://B/pqa_trials/2024/01/01/0200000000/f2.gz") "0200000000"))) ∧
    (processLdRequestWorkflow C1worldS).patchCalled = true ∧
    ¬ (processLdRequestWorkflow C1worldS).patches = [] :=
  C1_watermark_from_last_file C1worldS ⟨[]⟩ 1704067200000
    [Msg.fallbackUsed 1704067200000] ["pqa_trials/2024/01/01/0100000000/manifest"]
    ["s3://B/pqa_trials/2024/01/01/0100000000/f1.gz",
     "s3://B/pqa_trials/2024/01/01/0200000000/f2.gz"]
    "s3://B/pqa_trials/2024/01/01/0200000000/f2.gz" "0200000000"
    (by decide) (by decide) (by decide) (by decide) (by decide) (by decide)
    (by decide) (by decide) (by decide) (by decide)

end LdPipeline
